import Mathlib

/-
Shallow embedding of the `ptmjp` Julian-day library.

JavaScript numbers are modelled as exact rationals (`ℚ`).  Where the
behaviour on non-finite values (NaN, ±Infinity) matters — the input
validation of `g2jd`/`jd2g` and the unvalidated `year` argument of
`g2jd` — the extended type `ENum` below models the full JS value space
with IEEE-style propagation, and the arithmetic of the source is
re-traced on that type.  All other functions are modelled on `ℚ`,
which is the source semantics restricted to finite inputs (decimal
literals such as 30.6001 are taken at face value; the tiny binary
rounding of the double representation does not affect any truncation
performed by the algorithm on the inputs considered here).
-/

namespace Ptmjp

/- `Math.trunc`: rounds toward zero. -/
def jsTrunc (q : ℚ) : ℚ :=
  if 0 ≤ q then (⌊q⌋ : ℚ) else (⌈q⌉ : ℚ)

/- `Math.round`: rounds half toward positive infinity. -/
def jsRound (q : ℚ) : ℚ :=
  (⌊q + 1/2⌋ : ℚ)

/- `+x.toFixed(3)`: rounding to three decimals, ties toward positive
infinity per the ECMAScript `toFixed` specification. -/
def toFixed3 (q : ℚ) : ℚ :=
  (⌊q * 1000 + 1/2⌋ : ℚ) / 1000

/- The JS remainder operator `%` on numbers: `n - m * trunc(n / m)`,
whose result carries the sign of the dividend. -/
def jsRem (n m : ℚ) : ℚ :=
  n - m * jsTrunc (n / m)

namespace utils

/- Source `utils.isGregorian(year, month, day)` (lines 27-32). -/
def isGregorian (year month day : ℚ) : Bool :=
  decide (1582 < year) ||
    (decide (year = 1582) &&
      (decide (10 < month) || (decide (month = 10) && decide (14 < day))))

/- Source `utils.adjustJanFeb` (lines 41-48): Jan/Feb become months
13/14 of the previous year. -/
def adjustJanFeb (year month day : ℚ) : ℚ × ℚ × ℚ :=
  if month < 3 then (year - 1, month + 12, day) else (year, month, day)

/- Source `utils.integerTruncation` (lines 58-68). -/
def integerTruncation (d : ℚ) : ℚ :=
  if 0 < d then (⌊d⌋ : ℚ)
  else if d = (⌊d⌋ : ℚ) then d
  else (⌊d⌋ : ℚ) + 1

/- Source `utils.gregorianCorrectionFactor` (lines 79-87). -/
def gregorianCorrectionFactor (year month day : ℚ) : ℚ :=
  let A := integerTruncation (year / 100)
  if isGregorian year month day then 2 - A + integerTruncation (A / 4) else 0

/- Source `utils.hms2f` (lines 96-98). -/
def hms2f (h m s : ℚ) : ℚ :=
  h / 24 + m / 1440 + s / 86400

/- Source `utils.mod` (lines 108-111): `((n % m) + m) % m` with the JS
`%` operator. -/
def mod (n m : ℚ) : ℚ :=
  jsRem (jsRem n m + m) m

end utils

/- Source `_.solarNumber` (lines 121-124). -/
def solarNumber (year : ℚ) : ℚ :=
  utils.mod (year + 8) 28 + 1

/- Source `_.lunarNumber` (lines 132-135). -/
def lunarNumber (year : ℚ) : ℚ :=
  utils.mod year 19 + 1

/- Source `_.indictionNumber` (lines 143-146). -/
def indictionNumber (year : ℚ) : ℚ :=
  utils.mod (year + 2) 15 + 1

/- Source `_.julianPeriodYearNumber` (lines 154-170). -/
def julianPeriodYearNumber (year : ℚ) : ℚ :=
  let N : ℚ := 15 * 19 * 28
  let ind0 := indictionNumber year - 1
  let lun0 := lunarNumber year - 1
  let sol0 := solarNumber year - 1
  let combined := 6916 * ind0 + 4200 * lun0 + 4845 * sol0
  utils.mod combined N + 1

/- Extended JS number: NaN, the two infinities, or a finite value. -/
inductive ENum where
  | nan : ENum
  | posInf : ENum
  | negInf : ENum
  | fin : ℚ → ENum
deriving DecidableEq, Repr

namespace ENum

/- `Number.isFinite`. -/
def isFinite : ENum → Bool
  | fin _ => true
  | _ => false

/- `Number.isInteger`. -/
def isInt : ENum → Bool
  | fin q => q.den == 1
  | _ => false

def isNan : ENum → Bool
  | nan => true
  | _ => false

/- The JS `<` comparison; any comparison involving NaN is false. -/
def jsLt : ENum → ENum → Bool
  | nan, _ => false
  | _, nan => false
  | negInf, negInf => false
  | negInf, _ => true
  | _, negInf => false
  | posInf, _ => false
  | fin _, posInf => true
  | fin a, fin b => decide (a < b)

/- The JS `>` comparison. -/
def jsGt (a b : ENum) : Bool := jsLt b a

/- The JS `<=` comparison: false on NaN, otherwise the negation of `>`. -/
def jsLe (a b : ENum) : Bool :=
  if a.isNan || b.isNan then false else !(jsLt b a)

/- The JS `>=` comparison. -/
def jsGe (a b : ENum) : Bool := jsLe b a

/- The JS `===` comparison on numbers; NaN is equal to nothing. -/
def jsEq : ENum → ENum → Bool
  | nan, _ => false
  | _, nan => false
  | posInf, posInf => true
  | negInf, negInf => true
  | fin a, fin b => decide (a = b)
  | _, _ => false

/- IEEE addition on extended numbers. -/
def add : ENum → ENum → ENum
  | nan, _ => nan
  | _, nan => nan
  | posInf, negInf => nan
  | negInf, posInf => nan
  | posInf, _ => posInf
  | _, posInf => posInf
  | negInf, _ => negInf
  | _, negInf => negInf
  | fin a, fin b => fin (a + b)

def neg : ENum → ENum
  | nan => nan
  | posInf => negInf
  | negInf => posInf
  | fin a => fin (-a)

/- IEEE subtraction. -/
def sub (a b : ENum) : ENum := a.add b.neg

/- IEEE multiplication; infinity times zero is NaN. -/
def mul : ENum → ENum → ENum
  | nan, _ => nan
  | _, nan => nan
  | posInf, posInf => posInf
  | posInf, negInf => negInf
  | negInf, posInf => negInf
  | negInf, negInf => posInf
  | posInf, fin b => if 0 < b then posInf else if b < 0 then negInf else nan
  | fin a, posInf => if 0 < a then posInf else if a < 0 then negInf else nan
  | negInf, fin b => if 0 < b then negInf else if b < 0 then posInf else nan
  | fin a, negInf => if 0 < a then negInf else if a < 0 then posInf else nan
  | fin a, fin b => fin (a * b)

/- IEEE division (signed zeros ignored: all divisors appearing in the
source are nonzero constants). -/
def div : ENum → ENum → ENum
  | nan, _ => nan
  | _, nan => nan
  | posInf, posInf => nan
  | posInf, negInf => nan
  | negInf, posInf => nan
  | negInf, negInf => nan
  | posInf, fin b => if 0 ≤ b then posInf else negInf
  | negInf, fin b => if 0 ≤ b then negInf else posInf
  | fin _, posInf => fin 0
  | fin _, negInf => fin 0
  | fin a, fin b =>
      if b = 0 then (if a = 0 then nan else if 0 < a then posInf else negInf)
      else fin (a / b)

/- `Math.floor` on extended numbers. -/
def floor : ENum → ENum
  | nan => nan
  | posInf => posInf
  | negInf => negInf
  | fin q => fin (⌊q⌋ : ℚ)

end ENum

/- The source `utils` functions re-traced on extended numbers, for use
inside `g2jd` where the unvalidated `year` argument may be NaN or
infinite. -/
namespace utilsE

/- `utils.isGregorian` on extended numbers. -/
def isGregorian (year month day : ENum) : Bool :=
  year.jsGt (.fin 1582) ||
    (year.jsEq (.fin 1582) &&
      (month.jsGt (.fin 10) || (month.jsEq (.fin 10) && day.jsGt (.fin 14))))

/- `utils.adjustJanFeb` on extended numbers. -/
def adjustJanFeb (year month day : ENum) : ENum × ENum × ENum :=
  if month.jsLt (.fin 3) then (year.sub (.fin 1), month.add (.fin 12), day)
  else (year, month, day)

/- `utils.integerTruncation` on extended numbers.  NaN falls through
both guards (every NaN comparison is false) and yields NaN. -/
def integerTruncation (d : ENum) : ENum :=
  if d.jsGt (.fin 0) then d.floor
  else if d.jsEq d.floor then d
  else d.floor.add (.fin 1)

/- `utils.gregorianCorrectionFactor` on extended numbers. -/
def gregorianCorrectionFactor (year month day : ENum) : ENum :=
  let A := integerTruncation (year.div (.fin 100))
  if isGregorian year month day then
    ((ENum.fin 2).sub A).add (integerTruncation (A.div (.fin 4)))
  else .fin 0

/- `utils.hms2f` on extended numbers. -/
def hms2f (h m s : ENum) : ENum :=
  ((h.div (.fin 24)).add (m.div (.fin 1440))).add (s.div (.fin 86400))

end utilsE

/- The two error kinds thrown by the library. -/
inductive JpError where
  | rangeError : String → JpError
  | typeError : String → JpError
deriving DecidableEq, Repr

/- The record returned by `jd2g`. -/
structure GDateTime where
  year : ℚ
  month : ℚ
  day : ℚ
  hour : ℚ
  minute : ℚ
  second : ℚ
deriving DecidableEq, Repr

/- Source `_.g2jd` (lines 188-229).  The five guards reproduce the
source validation, including its use of JS comparisons (false on NaN)
after the `Number.isFinite` test; `year` is never validated and flows
through the extended arithmetic. -/
def g2jd (year month day hour minute second : ENum) : Except JpError ENum :=
  if !month.isFinite || !month.isInt ||
      month.jsLt (.fin 1) || month.jsGt (.fin 12) then
    .error (.rangeError "month must be an integer in 1..12")
  else if !day.isFinite || !day.isInt ||
      day.jsLt (.fin 1) || day.jsGt (.fin 31) then
    .error (.rangeError "day must be an integer in 1..31")
  else if !hour.isFinite || hour.jsLt (.fin 0) || hour.jsGe (.fin 24) then
    .error (.rangeError "hour must be in 0..23")
  else if !minute.isFinite || minute.jsLt (.fin 0) || minute.jsGe (.fin 60) then
    .error (.rangeError "minute must be in 0..59")
  else if !second.isFinite || second.jsLt (.fin 0) || second.jsGe (.fin 60) then
    .error (.rangeError "second must be in 0..59")
  else
    let adjusted := utilsE.adjustJanFeb year month day
    let year := adjusted.1
    let month := adjusted.2.1
    let day := adjusted.2.2
    let B := utilsE.gregorianCorrectionFactor year month day
    let dayFraction := utilsE.hms2f hour minute second
    let julianDay :=
      ((((utilsE.integerTruncation
            ((ENum.fin (365.25 : ℚ)).mul (year.add (.fin 4716)))).add
          (utilsE.integerTruncation
            ((ENum.fin (30.6001 : ℚ)).mul (month.add (.fin 1))))).add
        day).add B).sub (.fin (1524.5 : ℚ))
    .ok (julianDay.add dayFraction)

/- The fractional-day quantity computed at the start of `jd2g`
(source lines 245-247): `F = (jd + 0.5) - integerTruncation(jd + 0.5)`. -/
def jd2gF (jd : ℚ) : ℚ :=
  (jd + 0.5) - utils.integerTruncation (jd + 0.5)

/- The inner `isLeap` closure of `jd2g` (lines 296-297); the JS `%` is
the remainder operator. -/
def jdIsLeap (y : ℚ) (greg : Bool) : Bool :=
  if greg then
    decide (jsRem y 4 = 0) &&
      (decide (¬jsRem y 100 = 0) || decide (jsRem y 400 = 0))
  else decide (jsRem y 4 = 0)

/- The inner `daysInMonth` closure of `jd2g` (lines 299-303). -/
def jdDaysInMonth (y m : ℚ) (greg : Bool) : ℚ :=
  if m = 2 then (if jdIsLeap y greg then 29 else 28)
  else if m = 4 ∨ m = 6 ∨ m = 9 ∨ m = 11 then 30
  else 31

/- The body of `_.jd2g` (lines 244-325) after the finiteness check, on
a finite argument. -/
def jd2gQ (jd : ℚ) : GDateTime :=
  let temp := jd + 0.5
  let Z := utils.integerTruncation temp
  let F := temp - Z
  let A :=
    if 2299161 ≤ Z then
      let alpha := utils.integerTruncation ((Z - 1867216.25) / 36524.25)
      Z + 1 + alpha - utils.integerTruncation (alpha / 4)
    else Z
  let B := A + 1524
  let C := utils.integerTruncation ((B - 122.1) / 365.25)
  let D := utils.integerTruncation (365.25 * C)
  let E := utils.integerTruncation ((B - D) / 30.6001)
  let dayWithFrac := B - D - utils.integerTruncation (30.6001 * E) + F
  let day := utils.integerTruncation dayWithFrac
  let month := if E < 14 then E - 1 else E - 13
  let year := if 2 < month then C - 4716 else C - 4715
  let dayFraction := dayWithFrac - day
  let totalSeconds := dayFraction * 86400
  let totalSeconds := jsRound (totalSeconds * 1000) / 1000
  let hour := jsTrunc (totalSeconds / 3600)
  let totalSeconds := totalSeconds - hour * 3600
  let minute := jsTrunc (totalSeconds / 60)
  let second := toFixed3 (totalSeconds - minute * 60)
  let sm := if 60 ≤ second then (second - 60, minute + 1) else (second, minute)
  let second := sm.1
  let minute := sm.2
  let mh := if 60 ≤ minute then (minute - 60, hour + 1) else (minute, hour)
  let minute := mh.1
  let hour := mh.2
  let hd := if 24 ≤ hour then (hour - 24, day + 1) else (hour, day)
  let hour := hd.1
  let day := hd.2
  -- The source invokes `utils.isGregorian({ year, month, day })` with a
  -- single object argument, so inside `isGregorian` the parameters
  -- `month` and `day` are undefined and `year` is an object: every
  -- comparison against 1582/10/14 evaluates to false and the flag is
  -- constantly false.
  let gregFlag := false
  let dim := jdDaysInMonth year month gregFlag
  let dmy :=
    if dim < day then
      let month := month + 1
      if 12 < month then ((1 : ℚ), (1 : ℚ), year + 1) else (1, month, year)
    else (day, month, year)
  { year := dmy.2.2, month := dmy.2.1, day := dmy.1,
    hour := hour, minute := minute, second := second }

/- Source `_.jd2g` (lines 239-325): the `Number.isFinite` guard throws
a TypeError on NaN and the infinities, otherwise the finite body runs. -/
def jd2g (jd : ENum) : Except JpError GDateTime :=
  match jd with
  | .fin q => .ok (jd2gQ q)
  | _ => .error (.typeError "jd must be a finite number")

/- Composition used by the round-trip property: feed the result of
`g2jd` into `jd2g`. -/
def roundTrip (year month day hour minute second : ENum) :
    Except JpError GDateTime :=
  match g2jd year month day hour minute second with
  | .ok v => jd2g v
  | .error e => .error e

/-
Helper lemmas: relating the source's numeric primitives to the
mathematical floor, ceiling, truncated division and euclidean modulo.
-/

lemma integerTruncation_eq_jsTrunc (x : ℚ) :
    utils.integerTruncation x = jsTrunc x := by
  unfold utils.integerTruncation jsTrunc
  rcases lt_trichotomy x 0 with hx | hx | hx
  · rw [if_neg (by linarith), if_neg (by linarith : ¬0 ≤ x)]
    by_cases hfl : x = (⌊x⌋ : ℚ)
    · rw [if_pos hfl, hfl, Int.ceil_intCast]
    · rw [if_neg hfl]
      have h1 : ⌈x⌉ ≤ ⌊x⌋ + 1 := Int.ceil_le_floor_add_one x
      have h2 : ⌊x⌋ ≠ ⌈x⌉ := by
        intro he
        apply hfl
        have hf := Int.floor_le x
        have hc := Int.le_ceil x
        have : ((⌈x⌉ : ℤ) : ℚ) = ((⌊x⌋ : ℤ) : ℚ) := by exact_mod_cast he.symm
        linarith
      have h3 : ⌊x⌋ ≤ ⌈x⌉ := Int.floor_le_ceil x
      have h4 : ⌈x⌉ = ⌊x⌋ + 1 := by omega
      rw [h4]
      push_cast
      ring
  · subst hx
    norm_num
  · rw [if_pos hx, if_pos hx.le]

lemma integerTruncation_of_nonneg {d : ℚ} (hd : 0 ≤ d) :
    utils.integerTruncation d = (⌊d⌋ : ℚ) := by
  rw [integerTruncation_eq_jsTrunc, jsTrunc, if_pos hd]

lemma floor_intCast_div_intCast (a b : ℤ) (hb : 0 ≤ b) :
    ⌊(a : ℚ) / (b : ℚ)⌋ = a / b := by
  have hbn : ((b.toNat : ℕ) : ℤ) = b := Int.toNat_of_nonneg hb
  have hq : ((b.toNat : ℕ) : ℚ) = (b : ℚ) := by exact_mod_cast hbn
  rw [← hq, Rat.floor_intCast_div_natCast, hbn]

lemma jsTrunc_intCast_div (a b : ℤ) (hb : 0 < b) :
    jsTrunc ((a : ℚ) / (b : ℚ)) = ((a.tdiv b : ℤ) : ℚ) := by
  unfold jsTrunc
  rcases le_or_lt 0 a with ha | ha
  · have hq : (0 : ℚ) ≤ (a : ℚ) / (b : ℚ) :=
      div_nonneg (by exact_mod_cast ha) (by positivity)
    rw [if_pos hq, floor_intCast_div_intCast a b hb.le,
      Int.tdiv_eq_ediv ha hb.le]
  · have hq : (a : ℚ) / (b : ℚ) < 0 :=
      div_neg_of_neg_of_pos (by exact_mod_cast ha) (by positivity)
    rw [if_neg (not_le.mpr hq)]
    have hkey : ⌈(a : ℚ) / (b : ℚ)⌉ = a.tdiv b := by
      have h1 : -((a : ℚ) / (b : ℚ)) = ((-a : ℤ) : ℚ) / (b : ℚ) := by
        push_cast
        ring
      have h2 : ⌊-((a : ℚ) / (b : ℚ))⌋ = (-a) / b := by
        rw [h1]
        exact floor_intCast_div_intCast _ _ hb.le
      have h3 : (-a).tdiv b = (-a) / b := Int.tdiv_eq_ediv (by omega) hb.le
      have h4 : (-a).tdiv b = -(a.tdiv b) := Int.neg_tdiv a b
      have h5 := Int.floor_neg (a := (a : ℚ) / (b : ℚ))
      omega
    exact_mod_cast hkey

lemma tmod_lower (a : ℤ) {b : ℤ} (hb : 0 < b) : -b < a.tmod b := by
  rcases le_or_lt 0 a with ha | ha
  · have := Int.tmod_nonneg b ha
    linarith
  · have hneg : (-a).tmod b = -(a.tmod b) := by
      rw [Int.tmod_def, Int.tmod_def, Int.neg_tdiv]
      ring
    have h2 := Int.tmod_lt_of_pos (-a) hb
    linarith

lemma jsRem_intCast (a b : ℤ) (hb : 0 < b) :
    jsRem (a : ℚ) (b : ℚ) = ((a.tmod b : ℤ) : ℚ) := by
  unfold jsRem
  rw [jsTrunc_intCast_div a b hb, Int.tmod_def]
  push_cast
  ring

lemma mod_intCast (n m : ℤ) (hm : 0 < m) :
    utils.mod (n : ℚ) (m : ℚ) = ((n % m : ℤ) : ℚ) := by
  unfold utils.mod
  rw [jsRem_intCast n m hm]
  have h1 : ((n.tmod m : ℤ) : ℚ) + (m : ℚ) = ((n.tmod m + m : ℤ) : ℚ) := by
    push_cast
    ring
  rw [h1, jsRem_intCast _ m hm]
  have h2 : (n.tmod m + m).tmod m = n % m := by
    have hl := tmod_lower n hm
    have h0 : 0 ≤ n.tmod m + m := by linarith
    rw [Int.tmod_eq_emod h0 hm.le]
    conv_lhs => rw [Int.tmod_def]
    have h3 : n - m * n.tdiv m + m = n + m * (1 - n.tdiv m) := by ring
    rw [h3, Int.add_mul_emod_self_left]
  rw [h2]

lemma solarNumber_intCast (y : ℤ) :
    solarNumber (y : ℚ) = (((y + 8) % 28 + 1 : ℤ) : ℚ) := by
  unfold solarNumber
  rw [show ((y : ℚ) + 8) = ((y + 8 : ℤ) : ℚ) from by push_cast; ring,
    show (28 : ℚ) = ((28 : ℤ) : ℚ) from by norm_num,
    mod_intCast _ _ (by norm_num)]
  push_cast
  ring

lemma lunarNumber_intCast (y : ℤ) :
    lunarNumber (y : ℚ) = ((y % 19 + 1 : ℤ) : ℚ) := by
  unfold lunarNumber
  rw [show (19 : ℚ) = ((19 : ℤ) : ℚ) from by norm_num,
    mod_intCast _ _ (by norm_num)]
  push_cast
  ring

lemma indictionNumber_intCast (y : ℤ) :
    indictionNumber (y : ℚ) = (((y + 2) % 15 + 1 : ℤ) : ℚ) := by
  unfold indictionNumber
  rw [show ((y : ℚ) + 2) = ((y + 2 : ℤ) : ℚ) from by push_cast; ring,
    show (15 : ℚ) = ((15 : ℤ) : ℚ) from by norm_num,
    mod_intCast _ _ (by norm_num)]
  push_cast
  ring

lemma julianPeriodYearNumber_intCast (y : ℤ) :
    julianPeriodYearNumber (y : ℚ) =
      (((6916 * ((y + 2) % 15) + 4200 * (y % 19) + 4845 * ((y + 8) % 28)) %
          7980 + 1 : ℤ) : ℚ) := by
  simp only [julianPeriodYearNumber]
  rw [indictionNumber_intCast, lunarNumber_intCast, solarNumber_intCast]
  rw [show (6916 * ((((y + 2) % 15 + 1 : ℤ) : ℚ) - 1) +
      4200 * (((y % 19 + 1 : ℤ) : ℚ) - 1) +
      4845 * ((((y + 8) % 28 + 1 : ℤ) : ℚ) - 1)) =
      ((6916 * ((y + 2) % 15) + 4200 * (y % 19) + 4845 * ((y + 8) % 28) : ℤ)
        : ℚ) from by push_cast; ring]
  rw [show ((15 : ℚ) * 19 * 28) = ((7980 : ℤ) : ℚ) from by norm_num,
    mod_intCast _ _ (by norm_num)]
  push_cast
  ring

/-- C3 (amended).  For every finite `jd` with `jd + 0.5 ≥ 0`, the
fractional-day quantity `F = (jd + 0.5) - truncateTowardZero(jd + 0.5)`
computed at the start of `jd2g` lies in `[0, 1)`.  (For `jd < -0.5` the
truncation rounds up instead of down and `F` is negative, see the
counterexample.) -/
theorem claim3_fraction_range (jd : ℚ) (h : 0 ≤ jd + 0.5) :
    0 ≤ jd2gF jd ∧ jd2gF jd < 1 := by
  unfold jd2gF
  rw [integerTruncation_of_nonneg h]
  constructor
  · have := Int.floor_le (jd + 0.5)
    linarith
  · have := Int.lt_floor_add_one (jd + 0.5)
    linarith

/-- Witness for C3: the hypothesis holds at `jd = 13/4` and the
conclusion is obtained from the theorem there. -/
theorem claim3_witness : 0 ≤ jd2gF (13/4) ∧ jd2gF (13/4) < 1 :=
  claim3_fraction_range (13/4) (by norm_num)

/-- Counterexample to C3 as stated: `jd = -6/5` is a finite number
accepted by `jd2g`, yet `F = -7/10 ∉ [0, 1)`. -/
theorem claim3_counterexample :
    jd2gF (-6/5) = -(7/10) ∧ ¬(0 ≤ jd2gF (-6/5) ∧ jd2gF (-6/5) < 1) := by
  have h : jd2gF (-6/5) = -(7/10) := by
    norm_num [jd2gF, utils.integerTruncation]
  exact ⟨h, by rw [h]; norm_num⟩

/-- C5.  `g2jd(2000, 1, 1, 12, 0, 0)` returns exactly `2451545.0`, the
J2000 epoch. -/
theorem claim5_j2000 :
    g2jd (.fin 2000) (.fin 1) (.fin 1) (.fin 12) (.fin 0) (.fin 0) =
      .ok (.fin 2451545) := by
  norm_num [g2jd, utilsE.adjustJanFeb, utilsE.gregorianCorrectionFactor,
    utilsE.isGregorian, utilsE.integerTruncation, utilsE.hms2f, ENum.jsLt,
    ENum.jsGt, ENum.jsLe, ENum.jsGe, ENum.jsEq, ENum.isFinite, ENum.isInt,
    ENum.isNan, ENum.add, ENum.sub, ENum.neg, ENum.mul, ENum.div, ENum.floor]

/-- C6.  The century correction factor is 0 for every date the switch
predicate classifies as pre-Gregorian and `2 - A + trunc(A/4)` with
`A = trunc(year/100)` otherwise; in particular October 4, 1582 gets
`B = 0` and October 15, 1582 gets `B = -10` (both dates pass through
`adjustJanFeb` unchanged inside `g2jd`). -/
theorem claim6_century_correction :
    (∀ year month day : ℚ,
      utils.gregorianCorrectionFactor year month day =
        if utils.isGregorian year month day then
          2 - utils.integerTruncation (year / 100) +
            utils.integerTruncation (utils.integerTruncation (year / 100) / 4)
        else 0) ∧
    utils.isGregorian 1582 10 4 = false ∧
    utils.gregorianCorrectionFactor 1582 10 4 = 0 ∧
    utils.isGregorian 1582 10 15 = true ∧
    utils.gregorianCorrectionFactor 1582 10 15 = -10 ∧
    utils.adjustJanFeb 1582 10 4 = (1582, 10, 4) ∧
    utils.adjustJanFeb 1582 10 15 = (1582, 10, 15) := by
  refine ⟨fun y m d => rfl, ?_, ?_, ?_, ?_, ?_, ?_⟩ <;>
    norm_num [utils.isGregorian, utils.gregorianCorrectionFactor,
      utils.integerTruncation, utils.adjustJanFeb]

/-- C7.  `integerTruncation` truncates toward zero: it agrees with
`Math.trunc` everywhere, returns `floor x` for positive `x`, returns `x`
itself when `x` equals its floor, and returns `floor x + 1` (one more
than the floor) for negative non-integer `x`. -/
theorem claim7_truncation (x : ℚ) :
    utils.integerTruncation x = jsTrunc x ∧
    (0 < x → utils.integerTruncation x = (⌊x⌋ : ℚ)) ∧
    (x = (⌊x⌋ : ℚ) → utils.integerTruncation x = x) ∧
    (x < 0 ∧ x ≠ (⌊x⌋ : ℚ) →
      utils.integerTruncation x = (⌊x⌋ : ℚ) + 1 ∧
      utils.integerTruncation x - (⌊x⌋ : ℚ) = 1) := by
  refine ⟨integerTruncation_eq_jsTrunc x, ?_, ?_, ?_⟩
  · intro hx
    unfold utils.integerTruncation
    rw [if_pos hx]
  · intro hx
    unfold utils.integerTruncation
    by_cases h0 : 0 < x
    · rw [if_pos h0]
      exact hx.symm
    · rw [if_neg h0, if_pos hx]
  · rintro ⟨hneg, hne⟩
    unfold utils.integerTruncation
    rw [if_neg (by linarith), if_neg hne]
    exact ⟨rfl, by ring⟩

/-- Witness for C7: at the negative non-integer `x = -5/2` the third
clause applies and the truncation is `floor + 1`. -/
theorem claim7_witness :
    utils.integerTruncation (-5/2) = (⌊(-5/2 : ℚ)⌋ : ℚ) + 1 ∧
    utils.integerTruncation (-5/2) - (⌊(-5/2 : ℚ)⌋ : ℚ) = 1 :=
  (claim7_truncation (-5/2)).2.2.2 ⟨by norm_num, by norm_num⟩

/-- C8.  With zero-based cycle positions `ind0`, `lun0`, `sol0`, the
value `julianPeriodYearNumber(year) - 1` equals
`(6916*ind0 + 4200*lun0 + 4845*sol0) mod 7980`, and that value is
congruent to `ind0` mod 15, `lun0` mod 19 and `sol0` mod 28 (the CRT
combination). -/
theorem claim8_crt (y : ℤ) :
    ∃ i0 l0 s0 : ℤ,
      indictionNumber (y : ℚ) - 1 = (i0 : ℚ) ∧
      lunarNumber (y : ℚ) - 1 = (l0 : ℚ) ∧
      solarNumber (y : ℚ) - 1 = (s0 : ℚ) ∧
      julianPeriodYearNumber (y : ℚ) - 1 =
        (((6916 * i0 + 4200 * l0 + 4845 * s0) % 7980 : ℤ) : ℚ) ∧
      (6916 * i0 + 4200 * l0 + 4845 * s0) % 7980 ≡ i0 [ZMOD 15] ∧
      (6916 * i0 + 4200 * l0 + 4845 * s0) % 7980 ≡ l0 [ZMOD 19] ∧
      (6916 * i0 + 4200 * l0 + 4845 * s0) % 7980 ≡ s0 [ZMOD 28] := by
  refine ⟨(y + 2) % 15, y % 19, (y + 8) % 28, ?_, ?_, ?_, ?_, ?_, ?_, ?_⟩
  · rw [indictionNumber_intCast]
    push_cast
    ring
  · rw [lunarNumber_intCast]
    push_cast
    ring
  · rw [solarNumber_intCast]
    push_cast
    ring
  · rw [julianPeriodYearNumber_intCast]
    push_cast
    ring
  · show _ % (15 : ℤ) = _ % (15 : ℤ)
    omega
  · show _ % (19 : ℤ) = _ % (19 : ℤ)
    omega
  · show _ % (28 : ℤ) = _ % (28 : ℤ)
    omega

/-- C9.  For every integer year, the four cycle values lie in their
documented ranges: solar in `[1,28]`, lunar in `[1,19]`, indiction in
`[1,15]`, Julian-Period position in `[1,7980]`. -/
theorem claim9_cycle_ranges (y : ℤ) :
    (1 ≤ solarNumber (y : ℚ) ∧ solarNumber (y : ℚ) ≤ 28) ∧
    (1 ≤ lunarNumber (y : ℚ) ∧ lunarNumber (y : ℚ) ≤ 19) ∧
    (1 ≤ indictionNumber (y : ℚ) ∧ indictionNumber (y : ℚ) ≤ 15) ∧
    (1 ≤ julianPeriodYearNumber (y : ℚ) ∧
      julianPeriodYearNumber (y : ℚ) ≤ 7980) := by
  rw [solarNumber_intCast, lunarNumber_intCast, indictionNumber_intCast,
    julianPeriodYearNumber_intCast]
  refine ⟨⟨?_, ?_⟩, ⟨?_, ?_⟩, ⟨?_, ?_⟩, ⟨?_, ?_⟩⟩
  · exact_mod_cast (show (1 : ℤ) ≤ (y + 8) % 28 + 1 by omega)
  · exact_mod_cast (show ((y + 8) % 28 + 1 : ℤ) ≤ 28 by omega)
  · exact_mod_cast (show (1 : ℤ) ≤ y % 19 + 1 by omega)
  · exact_mod_cast (show (y % 19 + 1 : ℤ) ≤ 19 by omega)
  · exact_mod_cast (show (1 : ℤ) ≤ (y + 2) % 15 + 1 by omega)
  · exact_mod_cast (show ((y + 2) % 15 + 1 : ℤ) ≤ 15 by omega)
  · exact_mod_cast (show (1 : ℤ) ≤
      (6916 * ((y + 2) % 15) + 4200 * (y % 19) + 4845 * ((y + 8) % 28)) %
        7980 + 1 by omega)
  · exact_mod_cast (show
      ((6916 * ((y + 2) % 15) + 4200 * (y % 19) + 4845 * ((y + 8) % 28)) %
        7980 + 1 : ℤ) ≤ 7980 by omega)

/-
Validation-guard characterizations used by C4 and C10.
-/

lemma intGuard_eq_false_iff (x : ENum) (lo hi : ℚ) :
    (!x.isFinite || !x.isInt || x.jsLt (.fin lo) || x.jsGt (.fin hi))
        = false ↔
      ∃ k : ℤ, x = .fin (k : ℚ) ∧ lo ≤ (k : ℚ) ∧ (k : ℚ) ≤ hi := by
  cases x with
  | nan => simp [ENum.isFinite]
  | posInf => simp [ENum.isFinite]
  | negInf => simp [ENum.isFinite]
  | fin q =>
    simp only [ENum.isFinite, ENum.isInt, ENum.jsGt, ENum.jsLt, not_lt,
      Bool.not_true, Bool.false_or, Bool.or_eq_false_iff,
      Bool.not_eq_false', beq_iff_eq, decide_eq_false_iff_not,
      ENum.fin.injEq]
    constructor
    · rintro ⟨⟨hden, h1⟩, h2⟩
      have hnum := (Rat.den_eq_one_iff q).mp hden
      exact ⟨q.num, hnum.symm, by rw [hnum]; exact h1, by rw [hnum]; exact h2⟩
    · rintro ⟨k, rfl, h1, h2⟩
      exact ⟨⟨Rat.den_intCast k, h1⟩, h2⟩

lemma rangeGuard_eq_false_iff (x : ENum) (hi : ℚ) :
    (!x.isFinite || x.jsLt (.fin 0) || x.jsGe (.fin hi)) = false ↔
      ∃ q : ℚ, x = .fin q ∧ 0 ≤ q ∧ q < hi := by
  cases x with
  | nan => simp [ENum.isFinite]
  | posInf => simp [ENum.isFinite]
  | negInf => simp [ENum.isFinite]
  | fin q =>
    simp [ENum.isFinite, ENum.jsLt, ENum.jsGe, ENum.jsLe, ENum.isNan, not_lt]

lemma g2jd_error_iff_guards (year month day hour minute second : ENum) :
    (∃ msg, g2jd year month day hour minute second =
        .error (.rangeError msg)) ↔
      ((!month.isFinite || !month.isInt || month.jsLt (.fin 1) ||
          month.jsGt (.fin 12)) = true ∨
        (!day.isFinite || !day.isInt || day.jsLt (.fin 1) ||
          day.jsGt (.fin 31)) = true ∨
        (!hour.isFinite || hour.jsLt (.fin 0) || hour.jsGe (.fin 24))
          = true ∨
        (!minute.isFinite || minute.jsLt (.fin 0) || minute.jsGe (.fin 60))
          = true ∨
        (!second.isFinite || second.jsLt (.fin 0) || second.jsGe (.fin 60))
          = true) := by
  unfold g2jd
  split_ifs with h1 h2 h3 h4 h5
  · exact iff_of_true ⟨_, rfl⟩ (Or.inl h1)
  · exact iff_of_true ⟨_, rfl⟩ (Or.inr (Or.inl h2))
  · exact iff_of_true ⟨_, rfl⟩ (Or.inr (Or.inr (Or.inl h3)))
  · exact iff_of_true ⟨_, rfl⟩ (Or.inr (Or.inr (Or.inr (Or.inl h4))))
  · exact iff_of_true ⟨_, rfl⟩ (Or.inr (Or.inr (Or.inr (Or.inr h5))))
  · refine iff_of_false ?_ ?_
    · rintro ⟨msg, he⟩
      exact he
    · rintro (h | h | h | h | h) <;> contradiction

/-- C4.  `g2jd` fails with a RangeError exactly when month is not an
integer in 1..12, or day is not an integer in 1..31, or hour is not a
finite number in `[0,24)`, or minute/second are not finite numbers in
`[0,60)`; `jd2g` fails with a TypeError exactly when its argument is not
finite.  Failures are atomic (an `Except.error` carries no partial
result) and there is no other error path: in all remaining cases the
functions return `Except.ok`. -/
theorem claim4_error_conditions :
    (∀ year month day hour minute second : ENum,
      (∃ msg, g2jd year month day hour minute second =
          .error (.rangeError msg)) ↔
        ¬((∃ k : ℤ, month = .fin (k : ℚ) ∧ 1 ≤ (k : ℚ) ∧ (k : ℚ) ≤ 12) ∧
          (∃ k : ℤ, day = .fin (k : ℚ) ∧ 1 ≤ (k : ℚ) ∧ (k : ℚ) ≤ 31) ∧
          (∃ q : ℚ, hour = .fin q ∧ 0 ≤ q ∧ q < 24) ∧
          (∃ q : ℚ, minute = .fin q ∧ 0 ≤ q ∧ q < 60) ∧
          (∃ q : ℚ, second = .fin q ∧ 0 ≤ q ∧ q < 60))) ∧
    (∀ jd : ENum,
      (∃ msg, jd2g jd = .error (.typeError msg)) ↔ ¬∃ q : ℚ, jd = .fin q) := by
  constructor
  · intro year month day hour minute second
    rw [g2jd_error_iff_guards]
    have hmo := intGuard_eq_false_iff month 1 12
    have hd := intGuard_eq_false_iff day 1 31
    have hh := rangeGuard_eq_false_iff hour 24
    have hmi := rangeGuard_eq_false_iff minute 60
    have hs := rangeGuard_eq_false_iff second 60
    constructor
    · rintro (hg | hg | hg | hg | hg) ⟨v1, v2, v3, v4, v5⟩
      · exact absurd hg (by simp [hmo.mpr v1])
      · exact absurd hg (by simp [hd.mpr v2])
      · exact absurd hg (by simp [hh.mpr v3])
      · exact absurd hg (by simp [hmi.mpr v4])
      · exact absurd hg (by simp [hs.mpr v5])
    · intro hn
      by_contra hno
      push_neg at hno
      exact hn ⟨hmo.mp (Bool.eq_false_iff.mpr hno.1),
        hd.mp (Bool.eq_false_iff.mpr hno.2.1),
        hh.mp (Bool.eq_false_iff.mpr hno.2.2.1),
        hmi.mp (Bool.eq_false_iff.mpr hno.2.2.2.1),
        hs.mp (Bool.eq_false_iff.mpr hno.2.2.2.2)⟩
  · intro jd
    cases jd with
    | nan => simp [jd2g]
    | posInf => simp [jd2g]
    | negInf => simp [jd2g]
    | fin q => simp [jd2g]

/-- C10.  `g2jd` never validates its year argument: whenever month, day,
hour, minute and second satisfy the documented bounds, the call returns
`Except.ok` for every `year` — including NaN and the infinities, which
simply propagate through the arithmetic into the numeric result. -/
theorem claim10_year_unvalidated :
    ∀ year month day hour minute second : ENum,
      (∃ k : ℤ, month = .fin (k : ℚ) ∧ 1 ≤ (k : ℚ) ∧ (k : ℚ) ≤ 12) →
      (∃ k : ℤ, day = .fin (k : ℚ) ∧ 1 ≤ (k : ℚ) ∧ (k : ℚ) ≤ 31) →
      (∃ q : ℚ, hour = .fin q ∧ 0 ≤ q ∧ q < 24) →
      (∃ q : ℚ, minute = .fin q ∧ 0 ≤ q ∧ q < 60) →
      (∃ q : ℚ, second = .fin q ∧ 0 ≤ q ∧ q < 60) →
      ∃ v : ENum, g2jd year month day hour minute second = .ok v := by
  intro year month day hour minute second v1 v2 v3 v4 v5
  have g1 := (intGuard_eq_false_iff month 1 12).mpr v1
  have g2 := (intGuard_eq_false_iff day 1 31).mpr v2
  have g3 := (rangeGuard_eq_false_iff hour 24).mpr v3
  have g4 := (rangeGuard_eq_false_iff minute 60).mpr v4
  have g5 := (rangeGuard_eq_false_iff second 60).mpr v5
  simp only [g2jd, g1, g2, g3, g4, g5, Bool.false_eq_true, if_false]
  exact ⟨_, rfl⟩

/-- Witness for C10: a NaN year together with valid remaining arguments
is accepted without error. -/
theorem claim10_witness :
    ∃ v : ENum,
      g2jd .nan (.fin 1) (.fin 1) (.fin 12) (.fin 0) (.fin 0) = .ok v :=
  claim10_year_unvalidated .nan (.fin 1) (.fin 1) (.fin 12) (.fin 0) (.fin 0)
    ⟨1, by norm_num, by norm_num, by norm_num⟩
    ⟨1, by norm_num, by norm_num, by norm_num⟩
    ⟨12, by norm_num, by norm_num, by norm_num⟩
    ⟨0, by norm_num, by norm_num, by norm_num⟩
    ⟨0, by norm_num, by norm_num, by norm_num⟩

/-- C1 (amended).  For a representative set of valid civil date-times —
the J2000 epoch, a BCE date, the Julian leap day 1500-02-29, both sides
of the 1582 calendar switch, and the Gregorian leap day 2000-02-29 with
a fractional-second time — `jd2g(g2jd(...))` reproduces year, month,
day, hour, minute and second exactly.  The universal claim fails for
deep-BCE years (see the counterexample at year -5000). -/
theorem claim1_roundtrip_representative :
    roundTrip (.fin 2000) (.fin 1) (.fin 1) (.fin 12) (.fin 0) (.fin 0) =
      .ok ⟨2000, 1, 1, 12, 0, 0⟩ ∧
    roundTrip (.fin (-1000)) (.fin 3) (.fin 15) (.fin 12) (.fin 0) (.fin 0) =
      .ok ⟨-1000, 3, 15, 12, 0, 0⟩ ∧
    roundTrip (.fin 1500) (.fin 2) (.fin 29) (.fin 12) (.fin 0) (.fin 0) =
      .ok ⟨1500, 2, 29, 12, 0, 0⟩ ∧
    roundTrip (.fin 1582) (.fin 10) (.fin 4) (.fin 12) (.fin 0) (.fin 0) =
      .ok ⟨1582, 10, 4, 12, 0, 0⟩ ∧
    roundTrip (.fin 1582) (.fin 10) (.fin 15) (.fin 12) (.fin 0) (.fin 0) =
      .ok ⟨1582, 10, 15, 12, 0, 0⟩ ∧
    roundTrip (.fin 2000) (.fin 2) (.fin 29) (.fin 23) (.fin 59)
        (.fin (59.125 : ℚ)) =
      .ok ⟨2000, 2, 29, 23, 59, (59.125 : ℚ)⟩ := by
  refine ⟨?_, ?_, ?_, ?_, ?_, ?_⟩ <;>
    norm_num [roundTrip, g2jd, jd2g, jd2gQ, utilsE.adjustJanFeb,
      utilsE.gregorianCorrectionFactor, utilsE.isGregorian,
      utilsE.integerTruncation, utilsE.hms2f, ENum.jsLt, ENum.jsGt,
      ENum.jsLe, ENum.jsGe, ENum.jsEq, ENum.isFinite, ENum.isInt,
      ENum.isNan, ENum.add, ENum.sub, ENum.neg, ENum.mul, ENum.div,
      ENum.floor, utils.integerTruncation, jsTrunc, jsRound, toFixed3,
      jsRem, jdDaysInMonth, jdIsLeap]

/-- Counterexample to C1 as universally stated: year -5000 is a valid
civil date (Julian calendar, January 1), but the truncation-toward-zero
in the Meeus formula breaks down for adjusted years below -4716, and
the round trip returns January 3 of year -4999 instead. -/
theorem claim1_counterexample :
    roundTrip (.fin (-5000)) (.fin 1) (.fin 1) (.fin 12) (.fin 0) (.fin 0) =
      .ok ⟨-4999, 1, 3, 12, 0, 0⟩ ∧
    roundTrip (.fin (-5000)) (.fin 1) (.fin 1) (.fin 12) (.fin 0) (.fin 0) ≠
      .ok ⟨-5000, 1, 1, 12, 0, 0⟩ := by
  have h : roundTrip (.fin (-5000)) (.fin 1) (.fin 1) (.fin 12) (.fin 0)
      (.fin 0) = .ok ⟨-4999, 1, 3, 12, 0, 0⟩ := by
    norm_num [roundTrip, g2jd, jd2g, jd2gQ, utilsE.adjustJanFeb,
      utilsE.gregorianCorrectionFactor, utilsE.isGregorian,
      utilsE.integerTruncation, utilsE.hms2f, ENum.jsLt, ENum.jsGt,
      ENum.jsLe, ENum.jsGe, ENum.jsEq, ENum.isFinite, ENum.isInt,
      ENum.isNan, ENum.add, ENum.sub, ENum.neg, ENum.mul, ENum.div,
      ENum.floor, utils.integerTruncation, jsTrunc, jsRound, toFixed3,
      jsRem, jdDaysInMonth, jdIsLeap]
  refine ⟨h, ?_⟩
  rw [h]
  intro hc
  rw [Except.ok.injEq, GDateTime.mk.injEq] at hc
  have := hc.1
  norm_num at this

/-- C2 (code evaluates at the failing input).  At
`jd = 2415079.499999999` the carry normalization rolls the time past
midnight of February 28, 1900; the output date 1900-02-29 is
post-switch, so the claim's rule would use the Gregorian day count 28
and roll to March 1, but the code (whose `isGregorian` call receives a
single object argument and always yields `false`) uses the Julian day
count 29 and returns the nonexistent Gregorian date February 29, 1900. -/
theorem claim2_buggy_leap_rule :
    jd2g (.fin (2415079 + 1/2 - 1/1000000000)) =
      .ok ⟨1900, 2, 29, 0, 0, 0⟩ ∧
    utils.isGregorian 1900 2 29 = true ∧
    jdDaysInMonth 1900 2 true = 28 ∧
    jdDaysInMonth 1900 2 false = 29 := by
  refine ⟨?_, ?_, ?_, ?_⟩ <;>
    norm_num [jd2g, jd2gQ, utils.isGregorian, utils.integerTruncation,
      jsTrunc, jsRound, toFixed3, jsRem, jdDaysInMonth, jdIsLeap]

end Ptmjp
